import Mathlib

/-!
Verification of go-otel-demo: the cart handlers, the metrics middleware and the cart-size gauge.

A shallow embedding of

* `internal/models/cart.go`      (`ShoppingCart`),
* `internal/handlers/handlers.go` (`AddToCart`, `RemoveFromCart`, `GetCart`),
* `internal/middleware/metrics.go` (`ResponseWriter.WriteHeader`, `MetricsMiddleware`),
* `internal/telemetry/telemetry.go` (the `Carts` map and the gauge callback of `initMetrics`).

Conventions.  A Go `[]string` is an `Option (List String)` (`none` is the nil slice), a
`*models.ShoppingCart` is an `Option ShoppingCart` (`none` is the nil pointer), and the map
`map[string]*models.ShoppingCart` is an association list of its entries.  Every pointer stored in
the map is allocated by `AddToCart` and stored under one key only, so a write through the pointer
is a write to that entry.  A handler is a function from the map and the query parameters to the
attributes it sets on its span, what it does to the response writer and the map it leaves behind.
A Go panic is an explicit outcome.
-/

namespace GoOtelDemo

/-! ## Slices -/

/-- A Go `[]string`: `none` is the nil slice, `some xs` a non-nil slice holding `xs`. -/
abbrev Slice := Option (List String)

/-- Go `len(s)`. -/
def Slice.len : Slice → Nat
  | none => 0
  | some xs => xs.length

/-- The elements of a slice, as spread by `s...`. -/
def Slice.elems : Slice → List String
  | none => []
  | some xs => xs

/-- Go `append(s, xs...)`: the result is nil only when `s` is nil and nothing is appended. -/
def Slice.append : Slice → List String → Slice
  | none, [] => none
  | none, x :: xs => some (x :: xs)
  | some ys, xs => some (ys ++ xs)

/-- Go `s[:i]` for `i ≤ len(s)`; a slice of a non-nil slice is non-nil. -/
def Slice.upTo (s : Slice) (i : Nat) : Slice := s.map (List.take i)

/-- Go `s[i:]` for `i ≤ len(s)`. -/
def Slice.fromIdx (s : Slice) (i : Nat) : Slice := s.map (List.drop i)

/-- Go `fmt` verb `%v` on a `[]string`: the elements separated by blanks, in brackets. -/
def Slice.fmtV (s : Slice) : String := "[" ++ " ".intercalate s.elems ++ "]"

/-! ## `models.ShoppingCart` and the `Carts` map -/

/-- The struct `models.ShoppingCart`. -/
structure ShoppingCart where
  UserID : String
  Items : Slice
  deriving DecidableEq, Repr

/-- The map `map[string]*models.ShoppingCart` as the list of its entries; a value `none` is a nil
pointer. -/
abbrev Carts := List (String × Option ShoppingCart)

/-- Go `v, ok := m[k]`: `none` when the key is absent (`ok = false`). -/
def Carts.get : Carts → String → Option (Option ShoppingCart)
  | [], _ => none
  | (k', v) :: rest, k => if k' = k then some v else Carts.get rest k

/-- Go `m[k]`: the nil pointer when the key is absent. -/
def Carts.index (m : Carts) (k : String) : Option ShoppingCart := (m.get k).join

/-- Go `m[k] = v`: overwrite the entry of `k`, or add one. -/
def Carts.set : Carts → String → Option ShoppingCart → Carts
  | [], k, v => [(k, v)]
  | (k', v') :: rest, k, v =>
    if k' = k then (k, v) :: rest else (k', v') :: Carts.set rest k v

/-- The keys of the map. -/
def Carts.keys (m : Carts) : List String := m.map Prod.fst

/-- The map made by `initMetrics`: `make(map[string]*models.ShoppingCart)`. -/
def initCarts : Carts := []

/-! ## What a handler does -/

/-- An attribute value (`attribute.String`, `attribute.Int`, `attribute.Bool`). -/
inductive AttrValue where
  | str (s : String)
  | int (n : Int)
  | bool (b : Bool)
  deriving DecidableEq, Repr

/-- A key/value attribute. -/
abbrev Attr := String × AttrValue

/-- How a handler ends: it called `w.WriteHeader(status)` and wrote `body`, or it panicked before
writing anything. -/
inductive Outcome where
  | responded (status : Int) (body : String)
  | panicked
  deriving DecidableEq, Repr

/-- What a handler did: the attributes it set on its own span, in order, and how it ended. -/
structure HandlerResult where
  span : List Attr
  outcome : Outcome
  deriving DecidableEq, Repr

/-- The digit loop of `strconv.Atoi`: `n = n*10 + int(ch - '0')` over the characters, `none`
(a syntax error) at the first character that is not a decimal digit. -/
def atoiDigits : List Char → Nat → Option Nat
  | [], acc => some acc
  | c :: cs, acc => if c.isDigit then atoiDigits cs (acc * 10 + (c.toNat - 48)) else none

/-- Go `strconv.Atoi` where `int` has 64 bits: an optional sign, then one or more decimal digits,
the value within `[-2^63, 2^63 - 1]`; `none` when it returns an error (syntax or range). -/
def atoi (s : String) : Option Int :=
  match s.toList with
  | [] => none
  | '-' :: cs =>
    if cs = [] then none else
    match atoiDigits cs 0 with
    | none => none
    | some n => if n ≤ 2 ^ 63 then some (-(n : Int)) else none
  | '+' :: cs =>
    if cs = [] then none else
    match atoiDigits cs 0 with
    | none => none
    | some n => if n < 2 ^ 63 then some (n : Int) else none
  | cs =>
    match atoiDigits cs 0 with
    | none => none
    | some n => if n < 2 ^ 63 then some (n : Int) else none

/-! ## `handlers.go` -/

/-- The handler `AddToCart` -/
def AddToCart (carts : Carts) (userID item : String) : HandlerResult × Carts :=
  let span : List Attr := [("user.id", .str userID), ("cart.item", .str item)]
  if userID = "" ∨ item = "" then
    (⟨span ++ [("error", .bool true)],
      .responded 400 "Missing user_id or item parameter"⟩, carts)
  else
    -- if h.collector.Carts[userID] == nil { h.collector.Carts[userID] = &ShoppingCart{...} }
    let carts1 :=
      if carts.index userID = none then carts.set userID (some ⟨userID, some []⟩) else carts
    -- h.collector.Carts[userID].Items = append(h.collector.Carts[userID].Items, item)
    match carts1.index userID with
    | none => (⟨span, .panicked⟩, carts1)
    | some cart =>
      let carts2 := carts1.set userID (some { cart with Items := cart.Items.append [item] })
      -- cartSize := len(h.collector.Carts[userID].Items)
      match carts2.index userID with
      | none => (⟨span, .panicked⟩, carts2)
      | some cart2 =>
        let cartSize := cart2.Items.len
        (⟨span ++ [("cart.size", .int cartSize), ("operation", .str "add")],
          .responded 200 ("Added " ++ item ++ " to cart for user " ++ userID ++
            ". Cart now has " ++ toString cartSize ++ " items.")⟩, carts2)

/-- The handler `RemoveFromCart` -/
def RemoveFromCart (carts : Carts) (userID itemIndex : String) : HandlerResult × Carts :=
  let span : List Attr := [("user.id", .str userID), ("item.index", .str itemIndex)]
  if userID = "" ∨ itemIndex = "" then
    (⟨span ++ [("error", .bool true)],
      .responded 400 "Missing user_id or index parameter"⟩, carts)
  else
    match atoi itemIndex with
    | none =>
      (⟨span ++ [("error", .bool true)], .responded 400 "Invalid index parameter"⟩, carts)
    | some index =>
      -- cart, exists := h.collector.Carts[userID]
      match carts.get userID with
      | none =>
        (⟨span ++ [("error", .bool true)],
          .responded 404 ("Cart not found or empty for user " ++ userID)⟩, carts)
      | some none =>
        -- exists, and len(cart.Items) dereferences the nil pointer
        (⟨span, .panicked⟩, carts)
      | some (some cart) =>
        if cart.Items.len = 0 then
          (⟨span ++ [("error", .bool true)],
            .responded 404 ("Cart not found or empty for user " ++ userID)⟩, carts)
        else if index < 0 ∨ index ≥ (cart.Items.len : Int) then
          (⟨span ++ [("error", .bool true)], .responded 400 "Index out of range"⟩, carts)
        else
          -- cart.Items = append(cart.Items[:index], cart.Items[index+1:]...)
          -- here 0 ≤ index < len(cart.Items), so both slice expressions are in bounds
          let items :=
            (cart.Items.upTo index.toNat).append (cart.Items.fromIdx (index.toNat + 1)).elems
          let carts1 := carts.set userID (some { cart with Items := items })
          let cartSize := items.len
          (⟨span ++ [("cart.size", .int cartSize), ("operation", .str "remove")],
            .responded 200 ("Removed item at index " ++ toString index ++
              " from cart for user " ++ userID ++ ". Cart now has " ++ toString cartSize ++
              " items.")⟩, carts1)

/-- The handler `GetCart` -/
def GetCart (carts : Carts) (userID : String) : HandlerResult × Carts :=
  let span : List Attr := [("user.id", .str userID)]
  if userID = "" then
    (⟨span ++ [("error", .bool true)], .responded 400 "Missing user_id parameter"⟩, carts)
  else
    -- cart, exists := h.collector.Carts[userID]
    match carts.get userID with
    | none =>
      (⟨span ++ [("cart.size", .int 0)],
        .responded 200 ("Cart for user " ++ userID ++ ": 0 items")⟩, carts)
    | some none =>
      -- len(cart.Items) dereferences the nil pointer
      (⟨span, .panicked⟩, carts)
    | some (some cart) =>
      let cartSize := cart.Items.len
      (⟨span ++ [("cart.size", .int cartSize)],
        .responded 200 ("Cart for user " ++ userID ++ ": " ++ toString cartSize ++
          " items - " ++ cart.Items.fmtV)⟩, carts)

/-! ## The states of the map in a run of the server -/

/-- A request to one of the three cart endpoints of `main.go`, with its query parameters
(an absent parameter is the empty string, as `r.URL.Query().Get` returns it).  The other two
endpoints, `/health` and `/error`, do not touch the map. -/
inductive Request where
  | add (userID item : String)
  | remove (userID itemIndex : String)
  | get (userID : String)
  deriving DecidableEq, Repr

/-- Serve one request. -/
def handle (carts : Carts) : Request → HandlerResult × Carts
  | .add userID item => AddToCart carts userID item
  | .remove userID itemIndex => RemoveFromCart carts userID itemIndex
  | .get userID => GetCart carts userID

/-- Serve the requests of a list one after the other, from the left. -/
def serve (carts : Carts) : List Request → Carts
  | [] => carts
  | r :: rs => serve (handle carts r).2 rs

/-- The maps the handlers can produce: from the map made by `initMetrics`, by any number of
requests served one after the other. -/
inductive Reachable : Carts → Prop
  | init : Reachable initCarts
  | step (carts : Carts) (r : Request) : Reachable carts → Reachable (handle carts r).2

/-! ## The cart-size gauge callback of `initMetrics` -/

/-- One `observer.ObserveInt64(gauge, value, metric.WithAttributes(attrs...))`. -/
structure Observation where
  value : Int
  attrs : List Attr
  deriving DecidableEq, Repr

/-- How the callback ends: it returns its `error` (`none` is Go nil) after the observations it
made, or it panics. -/
inductive CallbackResult where
  | returned (observations : List Observation) (err : Option String)
  | panicked
  deriving DecidableEq, Repr

/-- The loop of the callback, `for userID, cart := range metricsCollector.Carts`, over the
entries in the order the list holds them; `none` when `cart.Items` dereferences a nil pointer. -/
def cartSizeObservations : Carts → Option (List Observation)
  | [] => some []
  | (_, none) :: _ => none
  | (userID, some cart) :: rest =>
    match cartSizeObservations rest with
    | none => none
    | some obs => some (⟨(cart.Items.len : Int), [("user_id", .str userID)]⟩ :: obs)

/-- The callback registered for `cart_items_count`: the loop, then `return nil`. -/
def cartSizeCallback (carts : Carts) : CallbackResult :=
  match cartSizeObservations carts with
  | none => .panicked
  | some obs => .returned obs none

/-! ## `middleware/metrics.go` -/

/-- A call a handler makes on the `http.ResponseWriter` it is given. -/
inductive WriterCall where
  | writeHeader (code : Int)
  | write (data : String)
  deriving DecidableEq, Repr

/-- The wrapper `ResponseWriter`: the captured `StatusCode`, and the calls handed on to the
embedded `http.ResponseWriter`. -/
structure ResponseWriter where
  forwarded : List WriterCall
  StatusCode : Int
  deriving DecidableEq, Repr

/-- The method `(*ResponseWriter).WriteHeader` -/
def ResponseWriter.WriteHeader (rw : ResponseWriter) (code : Int) : ResponseWriter :=
  { StatusCode := code, forwarded := rw.forwarded ++ [.writeHeader code] }

/-- The promoted method `Write` of the embedded writer: the wrapper does not override it. -/
def ResponseWriter.Write (rw : ResponseWriter) (data : String) : ResponseWriter :=
  { rw with forwarded := rw.forwarded ++ [.write data] }

/-- One call of the handler, on the wrapper. -/
def ResponseWriter.call (rw : ResponseWriter) : WriterCall → ResponseWriter
  | .writeHeader code => rw.WriteHeader code
  | .write data => rw.Write data

/-- A run of a wrapped handler `next`, as the middleware sees it: the calls it makes on the
writer, in order, and whether it then returns or panics. -/
structure HandlerRun where
  calls : List WriterCall
  panics : Bool
  deriving DecidableEq, Repr

/-- The run of one of the cart handlers: `w.WriteHeader(status)`, then `fmt.Fprintf(w, body)`. -/
def HandlerResult.run (res : HandlerResult) : HandlerRun :=
  match res.outcome with
  | .responded status body => ⟨[.writeHeader status, .write body], false⟩
  | .panicked => ⟨[], true⟩

/-- A call the middleware makes on its span or on an instrument of the collector. -/
inductive Event where
  | spanStart (name : String)
  | spanSetAttributes (attrs : List Attr)
  | spanEnd
  | latencyRecord (elapsed : Int) (attrs : List Attr)
  | errorCounterAdd (incr : Int) (attrs : List Attr)
  deriving DecidableEq, Repr

/-- Is the event a `LatencyRecorder.Record`? -/
def Event.isLatencyRecord : Event → Bool
  | .latencyRecord _ _ => true
  | _ => false

/-- Is the event an `ErrorCounter.Add`? -/
def Event.isErrorCounterAdd : Event → Bool
  | .errorCounterAdd _ _ => true
  | _ => false

/-- What one request through the middleware leaves behind: the calls on the span and the
instruments in order, the wrapper, and whether the panic of the handler goes on to the caller. -/
structure MiddlewareResult where
  events : List Event
  ww : ResponseWriter
  panicked : Bool
  deriving DecidableEq, Repr

/-- The function `MetricsMiddleware`, for a request with the given `r.Method`, `r.URL.String()`
and `r.URL.Path`; `elapsed` is `time.Since(start)`, and `next` the run of the wrapped handler.
The deferred `span.End()` runs when the function is left, by return or by panic. -/
def MetricsMiddleware (method url path : String) (elapsed : Int) (next : HandlerRun) :
    MiddlewareResult :=
  let ev0 : List Event :=
    [.spanStart (method ++ " " ++ path),
     .spanSetAttributes
       [("http.method", .str method), ("http.url", .str url), ("http.route", .str path)]]
  -- ww := &ResponseWriter{ResponseWriter: w, StatusCode: http.StatusOK}
  let ww0 : ResponseWriter := ⟨[], 200⟩
  -- next.ServeHTTP(ww, r)
  let ww := next.calls.foldl ResponseWriter.call ww0
  if next.panics then
    ⟨ev0 ++ [.spanEnd], ww, true⟩
  else
    let attrs : List Attr :=
      [("method", .str method), ("endpoint", .str path), ("status_code", .int ww.StatusCode)]
    let ev1 := ev0 ++
      [.spanSetAttributes [("http.status_code", .int ww.StatusCode)],
       .latencyRecord elapsed attrs]
    let ev2 :=
      if ww.StatusCode ≥ 400 then
        ev1 ++ [.spanSetAttributes [("error", .bool true)], .errorCounterAdd 1 attrs]
      else ev1
    ⟨ev2 ++ [.spanEnd], ww, false⟩

/-! ## Notions the statements use -/

/-- The items of the cart of `k`: none when `k` has no cart. -/
def Carts.itemsOf (m : Carts) (k : String) : List String :=
  match m.index k with
  | none => []
  | some cart => cart.Items.elems

/-- The cart `AddToCart` appends to: the cart of the user, or the one it makes. -/
def cartOrNew (m : Carts) (userID : String) : ShoppingCart :=
  match m.index userID with
  | none => ⟨userID, some []⟩
  | some cart => cart

/-- The observation the callback makes for a user: the item count of the cart, under the
attribute `user_id`. -/
def observationOf (m : Carts) (userID : String) : Observation :=
  ⟨((m.itemsOf userID).length : Int), [("user_id", .str userID)]⟩

/-- The codes a handler passes to `WriteHeader`, in order. -/
def headerCodes : List WriterCall → List Int
  | [] => []
  | .writeHeader code :: rest => code :: headerCodes rest
  | .write _ :: rest => headerCodes rest

/-- The code of the last `WriteHeader` of a handler, and 200 when it never calls it: what the
wrapper holds in `StatusCode` once the handler has returned.  It is not the status of the
response, see `responseStatus`. -/
def lastHeaderCode (calls : List WriterCall) : Int :=
  ((headerCodes calls).getLast?).getD 200

/-- The status of the response the embedded `net/http` writer sends, given the calls handed on
to it, in order.  The first `WriteHeader` whose code is not informational (1xx other than 101)
fixes the status and later ones are ignored as superfluous; a `Write` before any such call
sends 200; so does the server when the handler returns without either. -/
def responseStatus : List WriterCall → Int
  | [] => 200
  | .writeHeader code :: rest =>
    if 100 ≤ code ∧ code ≤ 199 ∧ code ≠ 101 then responseStatus rest else code
  | .write _ :: _ => 200

/-- An entry as the handlers make them: a key that is not empty, a cart that is not nil, with
an item slice that is not nil. -/
def EntryOK (e : String × Option ShoppingCart) : Prop :=
  e.1 ≠ "" ∧ ∃ cart, e.2 = some cart ∧ cart.Items ≠ none

/-- The invariant of the map: one entry per key, every entry well formed. -/
def StoreInv (m : Carts) : Prop :=
  m.keys.Nodup ∧ ∀ e ∈ m, EntryOK e

/-! ## The map operations -/

theorem Carts.get_set_same (m : Carts) (k : String) (v : Option ShoppingCart) :
    (m.set k v).get k = some v := by
  induction m with
  | nil => simp [Carts.set, Carts.get]
  | cons e rest ih =>
    obtain ⟨k', v'⟩ := e
    by_cases h : k' = k
    · simp [Carts.set, Carts.get, h]
    · simp [Carts.set, Carts.get, h, ih]

theorem Carts.get_set_other (m : Carts) (k k' : String) (v : Option ShoppingCart)
    (h : k' ≠ k) : (m.set k v).get k' = m.get k' := by
  induction m with
  | nil =>
    have : ¬ k = k' := fun e => h e.symm
    simp [Carts.set, Carts.get, this]
  | cons e rest ih =>
    obtain ⟨k1, v1⟩ := e
    by_cases h1 : k1 = k
    · subst h1
      have : ¬ k1 = k' := fun e => h e.symm
      simp [Carts.set, Carts.get, this]
    · by_cases h2 : k1 = k'
      · subst h2
        simp [Carts.set, Carts.get, h1]
      · simp [Carts.set, Carts.get, h1, h2, ih]

theorem Carts.set_set (m : Carts) (k : String) (v w : Option ShoppingCart) :
    (m.set k v).set k w = m.set k w := by
  induction m with
  | nil => simp [Carts.set]
  | cons e rest ih =>
    obtain ⟨k', v'⟩ := e
    by_cases h : k' = k
    · simp [Carts.set, h]
    · simp [Carts.set, h, ih]

theorem Carts.get_eq_none_iff (m : Carts) (k : String) : m.get k = none ↔ k ∉ m.keys := by
  induction m with
  | nil => simp [Carts.get, Carts.keys]
  | cons e rest ih =>
    obtain ⟨k', v'⟩ := e
    by_cases h : k' = k
    · simp [Carts.get, Carts.keys, h]
    · have h' : ¬ k = k' := fun e => h e.symm
      simp only [Carts.keys] at ih
      simp [Carts.get, Carts.keys, h, h', ih]

theorem Carts.mem_of_get (m : Carts) (k : String) (v : Option ShoppingCart)
    (h : m.get k = some v) : (k, v) ∈ m := by
  induction m with
  | nil => simp [Carts.get] at h
  | cons e rest ih =>
    obtain ⟨k', v'⟩ := e
    by_cases hk : k' = k
    · simp [Carts.get, hk] at h
      simp [hk, h]
    · simp [Carts.get, hk] at h
      exact List.mem_cons_of_mem _ (ih h)

theorem Carts.get_of_mem (m : Carts) (hm : m.keys.Nodup) (k : String)
    (v : Option ShoppingCart) (h : (k, v) ∈ m) : m.get k = some v := by
  induction m with
  | nil => simp at h
  | cons e rest ih =>
    obtain ⟨k', v'⟩ := e
    simp only [Carts.keys, List.map_cons, List.nodup_cons] at hm
    rcases List.mem_cons.1 h with h1 | h1
    · cases h1
      simp [Carts.get]
    · have hk : k' ≠ k := by
        intro e
        subst e
        exact hm.1 (List.mem_map.2 ⟨(k', v), h1, rfl⟩)
      simp only [Carts.get, hk, if_false]
      exact ih hm.2 h1

theorem Carts.keys_set (m : Carts) (k : String) (v : Option ShoppingCart) :
    (m.set k v).keys = if k ∈ m.keys then m.keys else m.keys ++ [k] := by
  induction m with
  | nil => simp [Carts.set, Carts.keys]
  | cons e rest ih =>
    obtain ⟨k', v'⟩ := e
    simp only [Carts.keys] at ih
    by_cases h : k' = k
    · simp [Carts.set, Carts.keys, h]
    · have h' : ¬ k = k' := fun e => h e.symm
      by_cases hm : k ∈ List.map Prod.fst rest
      · simp [Carts.set, Carts.keys, h, h', hm, ih]
      · simp [Carts.set, Carts.keys, h, h', hm, ih]

theorem Carts.mem_set (m : Carts) (k : String) (v : Option ShoppingCart)
    (e : String × Option ShoppingCart) (h : e ∈ m.set k v) : e = (k, v) ∨ e ∈ m := by
  induction m with
  | nil => simpa [Carts.set] using h
  | cons e' rest ih =>
    obtain ⟨k', v'⟩ := e'
    by_cases hk : k' = k
    · simp only [Carts.set, hk, if_true, List.mem_cons] at h
      rcases h with h | h
      · exact Or.inl h
      · exact Or.inr (List.mem_cons_of_mem _ h)
    · simp only [Carts.set, hk, if_false, List.mem_cons] at h
      rcases h with h | h
      · exact Or.inr (by simp [h])
      · rcases ih h with h | h
        · exact Or.inl h
        · exact Or.inr (List.mem_cons_of_mem _ h)

theorem Carts.length_set_of_mem (m : Carts) (k : String) (v : Option ShoppingCart)
    (h : k ∈ m.keys) : (m.set k v).length = m.length := by
  have := congrArg List.length (Carts.keys_set m k v)
  rw [if_pos h] at this
  simpa [Carts.keys] using this

theorem Carts.index_set_same (m : Carts) (k : String) (v : Option ShoppingCart) :
    (m.set k v).index k = v := by
  simp [Carts.index, Carts.get_set_same]

theorem Carts.mem_keys_set (m : Carts) (k k' : String) (v : Option ShoppingCart)
    (h : k' ∈ m.keys) : k' ∈ (m.set k v).keys := by
  rw [Carts.keys_set]
  split
  · exact h
  · exact List.mem_append_left _ h

theorem StoreInv.set {m : Carts} (h : StoreInv m) {k : String} (hk : k ≠ "")
    {cart : ShoppingCart} (hc : cart.Items ≠ none) : StoreInv (m.set k (some cart)) := by
  refine ⟨?_, ?_⟩
  · rw [Carts.keys_set]
    split
    · exact h.1
    · rename_i hnot
      exact List.Nodup.append h.1 (List.nodup_singleton k) (by simpa using hnot)
  · intro e he
    rcases Carts.mem_set m k _ e he with rfl | he
    · exact ⟨hk, cart, rfl, hc⟩
    · exact h.2 e he

theorem Slice.append_singleton (s : Slice) (x : String) :
    s.append [x] = some (s.elems ++ [x]) := by
  cases s <;> simp [Slice.append, Slice.elems]

/-! ## The handlers, path by path -/

theorem AddToCart_ok (m : Carts) (u x : String) (hu : u ≠ "") (hx : x ≠ "") :
    AddToCart m u x =
      (⟨[("user.id", .str u), ("cart.item", .str x),
          ("cart.size", .int (((m.itemsOf u).length + 1 : Nat) : Int)),
          ("operation", .str "add")],
        .responded 200 ("Added " ++ x ++ " to cart for user " ++ u ++ ". Cart now has " ++
          toString ((m.itemsOf u).length + 1) ++ " items.")⟩,
       m.set u (some ⟨(cartOrNew m u).UserID, some (m.itemsOf u ++ [x])⟩)) := by
  unfold AddToCart
  simp only [hu, hx, or_self, if_false]
  cases h : m.index u with
  | none =>
    simp [Carts.index_set_same, Carts.set_set, Carts.itemsOf, cartOrNew, h,
      Slice.append_singleton, Slice.elems, Slice.len]
  | some cart =>
    simp [Carts.index_set_same, Carts.set_set, Carts.itemsOf, cartOrNew, h,
      Slice.append_singleton, Slice.len]

theorem AddToCart_invalid (m : Carts) (u x : String) (h : u = "" ∨ x = "") :
    AddToCart m u x =
      (⟨[("user.id", .str u), ("cart.item", .str x), ("error", .bool true)],
        .responded 400 "Missing user_id or item parameter"⟩, m) := by
  unfold AddToCart
  simp [h]

theorem atoi_ne_empty (idx : String) (i : Int) (h : atoi idx = some i) : idx ≠ "" := by
  rintro rfl
  simp [atoi] at h

theorem RemoveFromCart_ok (m : Carts) (u idx : String) (cart : ShoppingCart)
    (xs : List String) (i : Nat) (hu : u ≠ "") (hidx : atoi idx = some (i : Int))
    (hget : m.get u = some (some cart)) (hitems : cart.Items = some xs) (hi : i < xs.length) :
    RemoveFromCart m u idx =
      (⟨[("user.id", .str u), ("item.index", .str idx),
          ("cart.size", .int ((xs.length - 1 : Nat) : Int)), ("operation", .str "remove")],
        .responded 200 ("Removed item at index " ++ toString (i : Int) ++
          " from cart for user " ++ u ++ ". Cart now has " ++ toString (xs.length - 1) ++
          " items.")⟩,
       m.set u (some { cart with Items := some (xs.take i ++ xs.drop (i + 1)) })) := by
  have hidx' := atoi_ne_empty idx _ hidx
  have hlen : xs.length ≠ 0 := by omega
  have hlen' : (xs.take i ++ xs.drop (i + 1)).length = xs.length - 1 := by
    simp [List.length_take, List.length_drop]
    omega
  unfold RemoveFromCart
  simp only [hu, hidx', or_self, if_false, hidx, hget, hitems, Slice.len]
  simp [hlen, hi, Slice.upTo, Slice.fromIdx, Slice.append, Slice.elems, Slice.len, hlen']

theorem RemoveFromCart_notFound (m : Carts) (u idx : String) (i : Int) (hu : u ≠ "")
    (hidx : atoi idx = some i)
    (h : m.get u = none ∨ ∃ cart, m.get u = some (some cart) ∧ cart.Items.len = 0) :
    RemoveFromCart m u idx =
      (⟨[("user.id", .str u), ("item.index", .str idx), ("error", .bool true)],
        .responded 404 ("Cart not found or empty for user " ++ u)⟩, m) := by
  have hidx' := atoi_ne_empty idx _ hidx
  unfold RemoveFromCart
  rcases h with h | ⟨cart, h, h0⟩
  · simp [hu, hidx', hidx, h]
  · simp [hu, hidx', hidx, h, h0]

theorem RemoveFromCart_outOfRange (m : Carts) (u idx : String) (i : Int) (cart : ShoppingCart)
    (hu : u ≠ "") (hidx : atoi idx = some i) (hget : m.get u = some (some cart))
    (hlen : cart.Items.len ≠ 0) (hi : i < 0 ∨ i ≥ (cart.Items.len : Int)) :
    RemoveFromCart m u idx =
      (⟨[("user.id", .str u), ("item.index", .str idx), ("error", .bool true)],
        .responded 400 "Index out of range"⟩, m) := by
  have hidx' := atoi_ne_empty idx _ hidx
  unfold RemoveFromCart
  simp [hu, hidx', hidx, hget, hlen, hi]

theorem RemoveFromCart_snd (m : Carts) (u idx : String) :
    (RemoveFromCart m u idx).2 = m ∨
      ∃ cart : ShoppingCart, u ≠ "" ∧ cart.Items ≠ none ∧
        (RemoveFromCart m u idx).2 = m.set u (some cart) := by
  unfold RemoveFromCart
  by_cases hg : u = "" ∨ idx = ""
  · simp [hg]
  · have hu : u ≠ "" := fun e => hg (Or.inl e)
    simp only [hg, if_false]
    cases atoi idx with
    | none => simp
    | some index =>
      cases m.get u with
      | none => simp
      | some v =>
        cases v with
        | none => simp
        | some cart =>
          by_cases h0 : cart.Items.len = 0
          · simp [h0]
          · by_cases hr : index < 0 ∨ index ≥ (cart.Items.len : Int)
            · simp [h0, hr]
            · right
              simp only [h0, hr, if_false]
              refine ⟨_, hu, ?_, rfl⟩
              cases hitems : cart.Items with
              | none => simp [hitems, Slice.len] at h0
              | some xs => simp [Slice.upTo, Slice.append]

theorem handle_snd (m : Carts) (r : Request) :
    (handle m r).2 = m ∨
      ∃ (k : String) (cart : ShoppingCart), k ≠ "" ∧ cart.Items ≠ none ∧
        (handle m r).2 = m.set k (some cart) := by
  cases r with
  | add u x =>
    by_cases hg : u = "" ∨ x = ""
    · left
      simp [handle, AddToCart_invalid m u x hg]
    · right
      have hu : u ≠ "" := fun e => hg (Or.inl e)
      have hx : x ≠ "" := fun e => hg (Or.inr e)
      refine ⟨u, ⟨(cartOrNew m u).UserID, some (m.itemsOf u ++ [x])⟩, hu, by simp, ?_⟩
      simp [handle, AddToCart_ok m u x hu hx]
  | remove u idx =>
    rcases RemoveFromCart_snd m u idx with h | ⟨cart, hu, hc, h⟩
    · exact Or.inl h
    · exact Or.inr ⟨u, cart, hu, hc, h⟩
  | get u =>
    left
    simp only [handle]
    unfold GetCart
    by_cases hu : u = ""
    · simp [hu]
    · simp only [hu, if_false]
      cases m.get u with
      | none => simp
      | some v => cases v <;> simp

theorem StoreInv.handle {m : Carts} (h : StoreInv m) (r : Request) :
    StoreInv (handle m r).2 := by
  rcases handle_snd m r with e | ⟨k, cart, hk, hc, e⟩
  · rw [e]; exact h
  · rw [e]; exact h.set hk hc

theorem StoreInv.init : StoreInv initCarts := by
  simp [StoreInv, initCarts, Carts.keys]

theorem Reachable.inv {m : Carts} (h : Reachable m) : StoreInv m := by
  induction h with
  | init => exact StoreInv.init
  | step carts r _ ih => exact ih.handle r

theorem Reachable.serve {m : Carts} (h : Reachable m) (rs : List Request) :
    Reachable (serve m rs) := by
  induction rs generalizing m with
  | nil => exact h
  | cons r rs ih => exact ih (Reachable.step m r h)

theorem mem_keys_handle (m : Carts) (r : Request) (k : String) (h : k ∈ m.keys) :
    k ∈ (handle m r).2.keys := by
  rcases handle_snd m r with e | ⟨k', cart, _, _, e⟩
  · rw [e]; exact h
  · rw [e]; exact Carts.mem_keys_set m k' k _ h

theorem mem_keys_serve (m : Carts) (rs : List Request) (k : String) (h : k ∈ m.keys) :
    k ∈ (serve m rs).keys := by
  induction rs generalizing m with
  | nil => exact h
  | cons r rs ih => exact ih _ (mem_keys_handle m r k h)

theorem StoreInv.key_ne_empty {m : Carts} (h : StoreInv m) (k : String)
    (v : Option ShoppingCart) (hg : m.get k = some v) : k ≠ "" :=
  (h.2 _ (Carts.mem_of_get m k v hg)).1

theorem Carts.itemsOf_of_get (m : Carts) (k : String) (cart : ShoppingCart)
    (h : m.get k = some (some cart)) : m.itemsOf k = cart.Items.elems := by
  simp [Carts.itemsOf, Carts.index, h]

/-! ## The gauge callback and the middleware, step by step -/

theorem cartSizeObservations_eq (l : Carts) (val : String → Int)
    (h : ∀ e ∈ l, ∃ cart, e.2 = some cart ∧ (cart.Items.len : Int) = val e.1) :
    cartSizeObservations l =
      some (l.map fun e => (⟨val e.1, [("user_id", .str e.1)]⟩ : Observation)) := by
  induction l with
  | nil => rfl
  | cons e rest ih =>
    obtain ⟨k, v⟩ := e
    obtain ⟨cart, hv, hval⟩ := h (k, v) (List.mem_cons_self _ _)
    simp only at hv hval
    subst hv
    have ih' := ih fun e he => h e (List.mem_cons_of_mem _ he)
    simp [cartSizeObservations, ih', hval]

theorem Slice.len_eq_length_elems (s : Slice) : s.len = s.elems.length := by
  cases s <;> rfl

theorem cartSizeObservations_of_inv (m : Carts) (h : StoreInv m) :
    cartSizeObservations m = some (m.map fun e => observationOf m e.1) := by
  refine cartSizeObservations_eq m (fun k => ((m.itemsOf k).length : Int)) ?_
  intro e he
  obtain ⟨_, cart, hv, _⟩ := h.2 e he
  refine ⟨cart, hv, ?_⟩
  have hget : m.get e.1 = some (some cart) := by
    rw [← hv]
    exact Carts.get_of_mem m h.1 e.1 e.2 he
  show (cart.Items.len : Int) = ((m.itemsOf e.1).length : Int)
  rw [Carts.itemsOf_of_get m e.1 cart hget, Slice.len_eq_length_elems]

theorem filter_observations (l : Carts) (hl : l.keys.Nodup) (f : String → Observation)
    (hf : ∀ k, (f k).attrs = [("user_id", .str k)]) (u : String) (hu : u ∈ l.keys) :
    (l.map fun e => f e.1).filter (fun o => decide (o.attrs = [("user_id", .str u)])) =
      [f u] := by
  induction l with
  | nil => simp [Carts.keys] at hu
  | cons e rest ih =>
    obtain ⟨k, v⟩ := e
    simp only [Carts.keys, List.map_cons, List.nodup_cons] at hl
    by_cases hk : k = u
    · subst hk
      have hnone : ∀ o ∈ rest.map (fun e => f e.1),
          ¬ decide (o.attrs = [("user_id", .str k)]) = true := by
        intro o ho
        obtain ⟨e, he, rfl⟩ := List.mem_map.1 ho
        have hne : e.1 ≠ k := by
          intro e'
          exact hl.1 (e' ▸ List.mem_map.2 ⟨e, he, rfl⟩)
        simp [hf, hne]
      simp [List.filter_cons, hf, List.filter_eq_nil_iff.2 hnone]
    · have hu' : u ∈ Carts.keys rest := by
        simp only [Carts.keys, List.map_cons, List.mem_cons] at hu
        rcases hu with hu | hu
        · exact absurd hu.symm hk
        · exact hu
      simp [List.filter_cons, hf, hk, ih hl.2 hu']

theorem foldl_call_StatusCode (calls : List WriterCall) (rw : ResponseWriter) :
    (calls.foldl ResponseWriter.call rw).StatusCode =
      ((headerCodes calls).getLast?).getD rw.StatusCode := by
  induction calls generalizing rw with
  | nil => simp [headerCodes]
  | cons c rest ih =>
    cases c with
    | writeHeader code =>
      rw [List.foldl_cons, ih]
      cases hr : headerCodes rest with
      | nil => simp [headerCodes, hr, ResponseWriter.call, ResponseWriter.WriteHeader]
      | cons a as =>
        simp only [headerCodes, hr, List.getLast?_cons_cons]
        rw [List.getLast?_eq_getLast _ (List.cons_ne_nil a as)]
        simp
    | write data =>
      rw [List.foldl_cons, ih]
      simp [headerCodes, ResponseWriter.call, ResponseWriter.Write]

/-- What the middleware does when the wrapped handler returns: it ends its span once, holds in
the wrapper the code of the last `WriteHeader` of the handler (200 when there is none), records
the latency once, with that code as `status_code`, and adds 1 to the error counter once, with
the same attributes, when that code is 400 or more, and not at all when it is less. -/
theorem MetricsMiddleware_returns (method url path : String) (elapsed : Int)
    (calls : List WriterCall) :
    (MetricsMiddleware method url path elapsed ⟨calls, false⟩).panicked = false ∧
      (MetricsMiddleware method url path elapsed ⟨calls, false⟩).ww.StatusCode =
        lastHeaderCode calls ∧
      (MetricsMiddleware method url path elapsed ⟨calls, false⟩).events.count .spanEnd = 1 ∧
      (MetricsMiddleware method url path elapsed ⟨calls, false⟩).events.filter
          Event.isLatencyRecord =
        [.latencyRecord elapsed [("method", .str method), ("endpoint", .str path),
          ("status_code", .int (lastHeaderCode calls))]] ∧
      (lastHeaderCode calls ≥ 400 →
        (MetricsMiddleware method url path elapsed ⟨calls, false⟩).events.filter
            Event.isErrorCounterAdd =
          [.errorCounterAdd 1 [("method", .str method), ("endpoint", .str path),
            ("status_code", .int (lastHeaderCode calls))]]) ∧
      (lastHeaderCode calls < 400 →
        (MetricsMiddleware method url path elapsed ⟨calls, false⟩).events.filter
            Event.isErrorCounterAdd = []) := by
  have hs : (calls.foldl ResponseWriter.call ⟨[], 200⟩).StatusCode = lastHeaderCode calls := by
    rw [foldl_call_StatusCode]
    rfl
  unfold MetricsMiddleware
  simp only [Bool.false_eq_true, if_false, hs]
  by_cases h : lastHeaderCode calls ≥ 400
  · have h' : ¬ lastHeaderCode calls < 400 := by omega
    simp [h, h', List.filter_cons, Event.isLatencyRecord, Event.isErrorCounterAdd,
      List.count_cons]
  · have h' : lastHeaderCode calls < 400 := by omega
    simp [h, h', List.filter_cons, Event.isLatencyRecord, Event.isErrorCounterAdd,
      List.count_cons]

theorem foldl_call_forwarded (calls : List WriterCall) (rw : ResponseWriter) :
    (calls.foldl ResponseWriter.call rw).forwarded = rw.forwarded ++ calls := by
  induction calls generalizing rw with
  | nil => simp
  | cons c rest ih =>
    cases c <;>
      simp [List.foldl_cons, ih, ResponseWriter.call, ResponseWriter.WriteHeader,
        ResponseWriter.Write]

/-- The embedded writer is handed every call of the handler, in order. -/
theorem MetricsMiddleware_forwarded (method url path : String) (elapsed : Int)
    (next : HandlerRun) :
    (MetricsMiddleware method url path elapsed next).ww.forwarded = next.calls := by
  unfold MetricsMiddleware
  split <;> simp [foldl_call_forwarded]

/-- For a handler that sets its status once, before writing the body, as the cart handlers do
(`HandlerResult.run`), the code the middleware records is the status of the response, when
that code is not informational. -/
theorem MetricsMiddleware_single_header (method url path : String) (elapsed : Int)
    (span : List Attr) (status : Int) (body : String)
    (hs : ¬ (100 ≤ status ∧ status ≤ 199 ∧ status ≠ 101)) :
    (MetricsMiddleware method url path elapsed
        (HandlerResult.run ⟨span, .responded status body⟩)).events.filter
          Event.isLatencyRecord =
      [.latencyRecord elapsed [("method", .str method), ("endpoint", .str path),
        ("status_code", .int (responseStatus (MetricsMiddleware method url path elapsed
          (HandlerResult.run ⟨span, .responded status body⟩)).ww.forwarded))]] := by
  rw [MetricsMiddleware_forwarded]
  have h := (MetricsMiddleware_returns method url path elapsed
    [.writeHeader status, .write body]).2.2.2.1
  simp only [HandlerResult.run, responseStatus, hs, if_false]
  simpa [lastHeaderCode, headerCodes] using h

/-! ## `strconv.Atoi` reads the decimal numeral of an index as that index -/

theorem atoiDigits_append (l : List Char) (c : Char) (acc : Nat) :
    atoiDigits (l ++ [c]) acc =
      (atoiDigits l acc).bind fun a =>
        if c.isDigit then some (a * 10 + (c.toNat - 48)) else none := by
  induction l generalizing acc with
  | nil => simp [atoiDigits]
  | cons d ds ih =>
    by_cases hd : d.isDigit
    · simp [atoiDigits, hd, ih]
    · simp [atoiDigits, hd]

theorem atoiDigits_isDigit (l : List Char) (acc v : Nat) (h : atoiDigits l acc = some v) :
    ∀ c ∈ l, c.isDigit = true := by
  induction l generalizing acc with
  | nil => simp
  | cons d ds ih =>
    by_cases hd : d.isDigit
    · simp only [atoiDigits, hd, if_true] at h
      intro c hc
      rcases List.mem_cons.1 hc with rfl | hc
      · exact hd
      · exact ih _ h c hc
    · simp [atoiDigits, hd] at h

theorem toDigitsCore_append (fuel n : Nat) (ds : List Char) :
    Nat.toDigitsCore 10 fuel n ds = Nat.toDigitsCore 10 fuel n [] ++ ds := by
  induction fuel generalizing n ds with
  | zero => simp [Nat.toDigitsCore]
  | succ fuel ih =>
    simp only [Nat.toDigitsCore]
    split
    · simp
    · rw [ih, ih (n / 10) [Nat.digitChar (n % 10)]]
      simp

theorem digitChar_isDigit (k : Nat) (hk : k < 10) :
    (Nat.digitChar k).isDigit = true ∧ (Nat.digitChar k).toNat - 48 = k := by
  interval_cases k <;> decide

theorem atoiDigits_toDigitsCore (fuel n : Nat) (h : n < fuel) :
    atoiDigits (Nat.toDigitsCore 10 fuel n []) 0 = some n := by
  induction fuel generalizing n with
  | zero => omega
  | succ fuel ih =>
    have hd := digitChar_isDigit (n % 10) (Nat.mod_lt _ (by decide))
    simp only [Nat.toDigitsCore]
    split
    · rename_i h0
      have : n % 10 = n := by omega
      simp only [atoiDigits, hd.1, hd.2, if_true]
      simp [this]
    · rename_i h0
      have hlt : n / 10 < fuel := by omega
      rw [toDigitsCore_append, atoiDigits_append, ih _ hlt]
      simp only [Option.some_bind, hd.1, hd.2, if_true]
      congr 1
      omega

theorem toDigits_ne_nil (n : Nat) : Nat.toDigits 10 n ≠ [] := by
  unfold Nat.toDigits
  simp only [Nat.toDigitsCore]
  split
  · simp
  · rw [toDigitsCore_append]
    simp

theorem atoi_toString (i : Nat) (h : i < 2 ^ 63) : atoi (toString i) = some (i : Int) := by
  have hv : atoiDigits (Nat.toDigits 10 i) 0 = some i :=
    atoiDigits_toDigitsCore (i + 1) i (Nat.lt_succ_self i)
  have hl : (toString i).toList = Nat.toDigits 10 i := rfl
  have hdig := atoiDigits_isDigit _ _ _ hv
  unfold atoi
  rw [hl]
  cases hcs : Nat.toDigits 10 i with
  | nil =>
    exact absurd hcs (toDigits_ne_nil i)
  | cons c cs =>
    rw [hcs] at hv hdig
    have hc : c.isDigit = true := hdig c (List.mem_cons_self _ _)
    have h1 : c ≠ '-' := by rintro rfl; revert hc; decide
    have h2 : c ≠ '+' := by rintro rfl; revert hc; decide
    split
    · simp_all
    · simp_all
    · simp_all
    · simp_all

/-! ## The handlers: what the specification says of them -/

/-- C2: for every map and every non-empty `userID` and `item`, `AddToCart` answers 200, reports
the old item count plus one (in the body and in the span attribute `cart.size`), leaves under
`userID` a cart (made when there was none) whose items are the old ones, none when there was no
cart, with `item` appended at the end, and leaves the entry of every other user as it was. -/
theorem AddToCart_appends (m : Carts) (u x : String) (hu : u ≠ "") (hx : x ≠ "") :
    (AddToCart m u x).1.outcome =
        .responded 200 ("Added " ++ x ++ " to cart for user " ++ u ++ ". Cart now has " ++
          toString ((m.itemsOf u).length + 1) ++ " items.") ∧
      (("cart.size", AttrValue.int (((m.itemsOf u).length + 1 : Nat) : Int)) ∈
        (AddToCart m u x).1.span) ∧
      (∃ cart, (AddToCart m u x).2.get u = some (some cart) ∧
        cart.Items = some (m.itemsOf u ++ [x])) ∧
      (m.get u = none → (AddToCart m u x).2.get u = some (some ⟨u, some [x]⟩)) ∧
      (∀ v, v ≠ u → (AddToCart m u x).2.get v = m.get v) := by
  rw [AddToCart_ok m u x hu hx]
  refine ⟨rfl, by simp, ⟨_, Carts.get_set_same _ _ _, rfl⟩, ?_, ?_⟩
  · intro h
    simp [Carts.get_set_same, cartOrNew, Carts.itemsOf, Carts.index, h]
  · intro v hv
    exact Carts.get_set_other _ _ _ _ hv

theorem AddToCart_appends_witness :
    (AddToCart [("u1", some ⟨"u1", some ["apple"]⟩)] "u1" "banana").1.outcome =
        .responded 200 "Added banana to cart for user u1. Cart now has 2 items." ∧
      (∃ cart, (AddToCart [("u1", some ⟨"u1", some ["apple"]⟩)] "u1" "banana").2.get "u1" =
          some (some cart) ∧ cart.Items = some ["apple", "banana"]) :=
  ⟨(AddToCart_appends [("u1", some ⟨"u1", some ["apple"]⟩)] "u1" "banana"
      (by decide) (by decide)).1,
   (AddToCart_appends [("u1", some ⟨"u1", some ["apple"]⟩)] "u1" "banana"
      (by decide) (by decide)).2.2.1⟩

/-- C4: for every map, `AddToCart` with an empty `userID` or an empty `item` answers 400 and
leaves the map as it was; a user without a cart still has none. -/
theorem AddToCart_rejects_empty (m : Carts) (u x : String) (h : u = "" ∨ x = "") :
    (AddToCart m u x).1.outcome = .responded 400 "Missing user_id or item parameter" ∧
      (AddToCart m u x).2 = m ∧
      (m.get u = none → (AddToCart m u x).2.get u = none) := by
  rw [AddToCart_invalid m u x h]
  exact ⟨rfl, rfl, fun h => h⟩

theorem AddToCart_rejects_empty_witness :
    (AddToCart [("u1", some ⟨"u1", some ["apple"]⟩)] "u2" "").1.outcome =
        .responded 400 "Missing user_id or item parameter" ∧
      (AddToCart [("u1", some ⟨"u1", some ["apple"]⟩)] "u2" "").2 =
        [("u1", some ⟨"u1", some ["apple"]⟩)] ∧
      (AddToCart initCarts "" "apple").2 = initCarts :=
  ⟨(AddToCart_rejects_empty [("u1", some ⟨"u1", some ["apple"]⟩)] "u2" ""
      (Or.inr rfl)).1,
   (AddToCart_rejects_empty [("u1", some ⟨"u1", some ["apple"]⟩)] "u2" ""
      (Or.inr rfl)).2.1,
   (AddToCart_rejects_empty initCarts "" "apple" (Or.inl rfl)).2.1⟩

/-- C1: in every map the handlers can produce, for every user whose cart holds `xs` and every
index `i < xs.length` (so `xs` is not empty), given as a string `strconv.Atoi` reads as `i`,
`RemoveFromCart` answers 200, reports the new size `xs.length - 1`, leaves the cart of the user
with `xs` less the element at position `i`, the others in their order, and leaves the entry of
every other user as it was. -/
theorem RemoveFromCart_removes (m : Carts) (u idx : String) (cart : ShoppingCart)
    (xs : List String) (i : Nat) (hm : Reachable m) (hget : m.get u = some (some cart))
    (hitems : cart.Items = some xs) (hi : i < xs.length) (hidx : atoi idx = some (i : Int)) :
    (RemoveFromCart m u idx).1.outcome =
        .responded 200 ("Removed item at index " ++ toString (i : Int) ++
          " from cart for user " ++ u ++ ". Cart now has " ++ toString (xs.length - 1) ++
          " items.") ∧
      (("cart.size", AttrValue.int ((xs.length - 1 : Nat) : Int)) ∈
        (RemoveFromCart m u idx).1.span) ∧
      (RemoveFromCart m u idx).2.get u =
        some (some { cart with Items := some (xs.eraseIdx i) }) ∧
      xs.eraseIdx i = xs.take i ++ xs.drop (i + 1) ∧
      (xs.eraseIdx i).length = xs.length - 1 ∧
      (∀ v, v ≠ u → (RemoveFromCart m u idx).2.get v = m.get v) := by
  have hu : u ≠ "" := hm.inv.key_ne_empty u _ hget
  have he : xs.eraseIdx i = xs.take i ++ xs.drop (i + 1) := List.eraseIdx_eq_take_drop_succ xs i
  rw [RemoveFromCart_ok m u idx cart xs i hu hidx hget hitems hi]
  refine ⟨rfl, by simp, ?_, he, ?_, ?_⟩
  · rw [he]
    exact Carts.get_set_same _ _ _
  · rw [List.length_eraseIdx, if_pos hi]
  · intro v hv
    exact Carts.get_set_other _ _ _ _ hv

theorem RemoveFromCart_removes_witness :
    (RemoveFromCart (serve initCarts [.add "u1" "apple", .add "u1" "banana"]) "u1" "0").1.outcome =
        .responded 200 "Removed item at index 0 from cart for user u1. Cart now has 1 items." ∧
      (RemoveFromCart (serve initCarts [.add "u1" "apple", .add "u1" "banana"]) "u1" "0").2.get
        "u1" = some (some ⟨"u1", some ["banana"]⟩) :=
  ⟨(RemoveFromCart_removes (serve initCarts [.add "u1" "apple", .add "u1" "banana"]) "u1" "0"
      ⟨"u1", some ["apple", "banana"]⟩ ["apple", "banana"] 0
      (Reachable.init.serve _) (by decide) rfl (by decide) (by decide)).1,
   (RemoveFromCart_removes (serve initCarts [.add "u1" "apple", .add "u1" "banana"]) "u1" "0"
      ⟨"u1", some ["apple", "banana"]⟩ ["apple", "banana"] 0
      (Reachable.init.serve _) (by decide) rfl (by decide) (by decide)).2.2.1⟩

/-- C3: for every map, every non-empty `userID` and every index that `strconv.Atoi` reads as the
integer `i`: `RemoveFromCart` answers 404 when the user has no cart or the cart is empty, and
answers 400 with `Index out of range` when the cart holds items and `i` is negative or at
least their number; in both cases the map is left as it was. -/
theorem RemoveFromCart_fails (m : Carts) (u idx : String) (i : Int) (hu : u ≠ "")
    (hidx : atoi idx = some i) :
    ((m.get u = none ∨ ∃ cart, m.get u = some (some cart) ∧ cart.Items.len = 0) →
        (RemoveFromCart m u idx).1.outcome =
            .responded 404 ("Cart not found or empty for user " ++ u) ∧
          (RemoveFromCart m u idx).2 = m) ∧
      (∀ cart, m.get u = some (some cart) → cart.Items.len ≠ 0 →
        (i < 0 ∨ i ≥ (cart.Items.len : Int)) →
        (RemoveFromCart m u idx).1.outcome = .responded 400 "Index out of range" ∧
          (RemoveFromCart m u idx).2 = m) := by
  refine ⟨?_, ?_⟩
  · intro h
    rw [RemoveFromCart_notFound m u idx i hu hidx h]
    exact ⟨rfl, rfl⟩
  · intro cart hget hlen hi
    rw [RemoveFromCart_outOfRange m u idx i cart hu hidx hget hlen hi]
    exact ⟨rfl, rfl⟩

theorem RemoveFromCart_fails_witness :
    ((RemoveFromCart initCarts "ghost" "0").1.outcome =
          .responded 404 "Cart not found or empty for user ghost" ∧
        (RemoveFromCart initCarts "ghost" "0").2 = initCarts) ∧
      ((RemoveFromCart [("u1", some ⟨"u1", some ["banana"]⟩)] "u1" "5").1.outcome =
          .responded 400 "Index out of range" ∧
        (RemoveFromCart [("u1", some ⟨"u1", some ["banana"]⟩)] "u1" "5").2 =
          [("u1", some ⟨"u1", some ["banana"]⟩)]) :=
  ⟨(RemoveFromCart_fails initCarts "ghost" "0" 0 (by decide) (by decide)).1 (Or.inl rfl),
   (RemoveFromCart_fails [("u1", some ⟨"u1", some ["banana"]⟩)] "u1" "5" 5 (by decide)
      (by decide)).2 ⟨"u1", some ["banana"]⟩ rfl (by decide) (Or.inr (by decide))⟩

/-- C8: in every map the handlers can produce, one run of the callback of `cart_items_count`
returns no error after one observation per entry of the map; for every user with a cart the
observations under that `user_id` are exactly one, its value the item count of the cart; on the
map `initMetrics` makes it returns no error after no observation. -/
theorem cartSizeCallback_observes (m : Carts) (hm : Reachable m) :
    cartSizeCallback m = .returned (m.map fun e => observationOf m e.1) none ∧
      (m.map fun e => observationOf m e.1).length = m.length ∧
      (∀ u cart, m.get u = some (some cart) →
        (m.map fun e => observationOf m e.1).filter
            (fun o => decide (o.attrs = [("user_id", .str u)])) =
          [⟨(cart.Items.len : Int), [("user_id", .str u)]⟩]) ∧
      cartSizeCallback initCarts = .returned [] none := by
  refine ⟨?_, by simp, ?_, rfl⟩
  · simp [cartSizeCallback, cartSizeObservations_of_inv m hm.inv]
  · intro u cart hget
    have hu : u ∈ m.keys := by
      by_contra hnot
      rw [(Carts.get_eq_none_iff m u).2 hnot] at hget
      cases hget
    rw [filter_observations m hm.inv.1 (observationOf m) (fun _ => rfl) u hu]
    simp [observationOf, Carts.itemsOf_of_get m u cart hget, Slice.len_eq_length_elems]

theorem cartSizeCallback_observes_witness :
    cartSizeCallback (serve initCarts [.add "u1" "apple", .add "u2" "pear", .add "u1" "banana"]) =
      .returned [⟨2, [("user_id", .str "u1")]⟩, ⟨1, [("user_id", .str "u2")]⟩] none :=
  (cartSizeCallback_observes
    (serve initCarts [.add "u1" "apple", .add "u2" "pear", .add "u1" "banana"])
    (Reachable.init.serve _)).1

/-! ## The invariant of the map, as the specification states it -/

/-- C9: from the map `initMetrics` makes, after any requests to the three handlers, whatever
their outcome, every entry of the map is a cart that is not nil with an item slice that is not
nil; further requests delete no entry; and removing the only item of a cart leaves the entry in
the map, with an empty slice that is not nil. -/
theorem carts_invariant (m : Carts) (hm : Reachable m) (rs : List Request) :
    (∀ k v, (k, v) ∈ serve m rs → ∃ cart xs, v = some cart ∧ cart.Items = some xs) ∧
      (∀ k, k ∈ m.keys → k ∈ (serve m rs).keys) ∧
      (∀ u idx cart x, m.get u = some (some cart) → cart.Items = some [x] →
        atoi idx = some 0 →
        (RemoveFromCart m u idx).2.get u = some (some { cart with Items := some [] })) := by
  refine ⟨?_, fun k hk => mem_keys_serve m rs k hk, ?_⟩
  · intro k v hkv
    obtain ⟨_, cart, hv, hc⟩ := (hm.serve rs).inv.2 (k, v) hkv
    cases hi : cart.Items with
    | none => exact absurd hi hc
    | some xs => exact ⟨cart, xs, hv, hi⟩
  · intro u idx cart x hget hitems hidx
    have hu : u ≠ "" := hm.inv.key_ne_empty u _ hget
    rw [RemoveFromCart_ok m u idx cart [x] 0 hu (by simpa using hidx) hget hitems (by simp)]
    simpa using Carts.get_set_same m u _

theorem carts_invariant_witness :
    (∀ k v, (k, v) ∈ serve (serve initCarts [.add "u1" "apple"]) [.remove "u1" "0", .get "u2"] →
        ∃ cart xs, v = some cart ∧ cart.Items = some xs) ∧
      (RemoveFromCart (serve initCarts [.add "u1" "apple"]) "u1" "0").2.get "u1" =
        some (some ⟨"u1", some []⟩) :=
  ⟨(carts_invariant (serve initCarts [.add "u1" "apple"]) (Reachable.init.serve _)
      [.remove "u1" "0", .get "u2"]).1,
   (carts_invariant (serve initCarts [.add "u1" "apple"]) (Reachable.init.serve _)
      []).2.2 "u1" "0" ⟨"u1", some ["apple"]⟩ "apple" (by decide) rfl (by decide)⟩

/-! ## The middleware -/

/-- C6, as the code has it: for every request whose wrapped handler panics, `MetricsMiddleware`
still ends its span once, by the deferred `span.End()`, and lets the panic go on to its caller;
it records no latency and adds nothing to the error counter for that request. -/
theorem MetricsMiddleware_panic (method url path : String) (elapsed : Int)
    (calls : List WriterCall) :
    (MetricsMiddleware method url path elapsed ⟨calls, true⟩).panicked = true ∧
      (MetricsMiddleware method url path elapsed ⟨calls, true⟩).events.count .spanEnd = 1 ∧
      (MetricsMiddleware method url path elapsed ⟨calls, true⟩).events.filter
          Event.isLatencyRecord = [] ∧
      (MetricsMiddleware method url path elapsed ⟨calls, true⟩).events.filter
          Event.isErrorCounterAdd = [] := by
  unfold MetricsMiddleware
  simp [List.filter_cons, Event.isLatencyRecord, Event.isErrorCounterAdd, List.count_cons]

/-- C6, as the specification has it, fails: a handler that sets status 500 and then panics
leaves the span ended once, but no latency record and no error-counter increment. -/
theorem MetricsMiddleware_panic_unrecorded :
    ¬ ((MetricsMiddleware "GET" "/error" "/error" 1500
            ⟨[.writeHeader 500], true⟩).events.count .spanEnd = 1 ∧
        ((MetricsMiddleware "GET" "/error" "/error" 1500
            ⟨[.writeHeader 500], true⟩).events.filter Event.isLatencyRecord).length = 1 ∧
        ((MetricsMiddleware "GET" "/error" "/error" 1500
            ⟨[.writeHeader 500], true⟩).events.filter Event.isErrorCounterAdd).length = 1) := by
  decide

end GoOtelDemo
